import Mathlib

/-!
Shallow embedding of the embedding-extraction core of
`src/internal/llama_shim/llama_shim.c` (functions `rm_copy_f32`,
`rm_l2_normalize`, `rm_llama_embed_text`).

The inference engine (llama.cpp) is an external collaborator: its
primitives (`llama_tokenize`, `llama_decode`, `llama_get_embeddings_seq`,
`llama_get_embeddings`, `llama_memory_clear`, `llama_set_n_threads`,
`malloc`, `sqrt`) are modelled as deterministic parameters collected in an
`Engine` / `Vocab` structure.  The context's mutable state (attention
memory, thread settings) is an explicit `Ctx` record; `llama_get_memory`
returning NULL is modelled by `Ctx.mem = none`, and `llama_memory_clear`
resets the memory contents to the empty list.  `llama_set_n_threads` is
modelled with its actual engine semantics: it assigns both thread fields
of the context.  Floating-point values are modelled as rationals; the
C library `sqrt` is an abstract function parameter `Engine.sqrtFn`.

Each run of `rm_llama_embed_text` additionally records a trace of the
engine operations it performed, so that ordering and absence-of-call
properties can be stated.  NULL pointer arguments are modelled with
`Option`; the caller's output buffer is a `List ℚ` whose final contents
are returned (unchanged contents model "buffer not written").
-/

/-- Token identifiers (`llama_token` is `int32_t`). -/
abbrev Token := Int

/-- Mutable state of a `llama_context` that the shim touches:
the attention memory (`none` models `llama_get_memory` returning NULL,
`some l` models a memory module currently holding contents `l`, with
`some []` the cleared state) and the two thread settings. -/
structure Ctx where
  mem : Option (List Token)
  nThreads : Int
  nThreadsBatch : Int
deriving DecidableEq, Repr

/-- Model of a `llama_vocab` handle: the tokenizer, as a deterministic
function of the text, its byte length, the two special-token flags and
the buffer capacity.  `tokRet` is the return value of `llama_tokenize`
(token count, or negative required capacity); `tokOut` is the token
sequence written into the buffer on success. -/
structure Vocab where
  tokRet : String → Int → Bool → Bool → Int → Int
  tokOut : String → Int → Bool → Bool → Int → List Token

/-- Model of a `llama_model` handle: its embedding dimension
(`llama_model_n_embd`) and its vocabulary (`llama_model_get_vocab`,
`none` modelling a NULL vocabulary). -/
structure Model where
  n_embd : Int
  vocab : Option Vocab

/-- Deterministic model of the remaining external primitives used by
`rm_llama_embed_text`: `mallocOk i k` is the outcome of the `i`-th
`malloc` of the call when asked for `k` tokens; `decode` is
`llama_decode` (return code and updated context); `embSeq` is
`llama_get_embeddings_seq ctx 0` and `embRaw` is `llama_get_embeddings`,
both as functions of the post-decode context; `sqrtFn` is the C library
`sqrt`. -/
structure Engine where
  mallocOk : Nat → Int → Bool
  decode : Ctx → List Token → Int × Ctx
  embSeq : Ctx → Option (List ℚ)
  embRaw : Ctx → Option (List ℚ)
  sqrtFn : ℚ → ℚ

/-- Engine operations recorded in a run's trace.  `decodeOp` records the
context state the forward pass was given. -/
inductive EngineOp where
  | memoryClear
  | setThreads (n_threads n_threads_batch : Int)
  | getVocab
  | allocOp (count : Int)
  | tokenizeOp (cap : Int)
  | decodeOp (ctx : Ctx) (tokens : List Token)
  | embSeqOp
  | embRawOp
deriving DecidableEq, Repr

/-- Result of a run of `rm_llama_embed_text`: the return code, the final
contents of the caller's output buffer (`none` iff the buffer pointer was
NULL), the final context state (`none` iff the context pointer was NULL)
and the trace of engine operations performed. -/
structure ExtractResult where
  rc : Int
  buf : Option (List ℚ)
  ctx : Option Ctx
  trace : List EngineOp
deriving Repr

/-- `rm_copy_f32` from llama_shim.c: copy the first `n` floats of `src`
over the front of `dst` (a no-op when `n ≤ 0`). -/
def rm_copy_f32 (dst src : List ℚ) (n : Int) : List ℚ :=
  if n ≤ 0 then dst
  else src.take n.toNat ++ dst.drop n.toNat

/-- The sum of squares of the first `n` entries of `src`, accumulated in
double precision in the C code (exact here). -/
def rm_sumsq (src : List ℚ) (n : Int) : ℚ :=
  ((src.take n.toNat).map fun v => v * v).sum

/-- `rm_l2_normalize` from llama_shim.c, with the C `sqrt` passed in as
the abstract function `sq`.  When `n ≤ 0` it is a no-op; when the norm is
not positive it falls back to `rm_copy_f32`; otherwise it scales every
element by the single reciprocal `1 / norm`. -/
def rm_l2_normalize (sq : ℚ → ℚ) (dst src : List ℚ) (n : Int) : List ℚ :=
  if n ≤ 0 then dst
  else
    let norm := sq (rm_sumsq src n)
    if norm ≤ 0 then rm_copy_f32 dst src n
    else (src.take n.toNat).map (fun v => v * (1 / norm)) ++ dst.drop n.toNat

/-- Lines 200–204 of llama_shim.c: dispatch on the normalization mode
(`2` = L2 normalize, anything else = plain copy). -/
def rm_write_output (sq : ℚ → ℚ) (normalize : Int) (dst src : List ℚ) (n : Int) : List ℚ :=
  if normalize = 2 then rm_l2_normalize sq dst src n else rm_copy_f32 dst src n

/-- Lines 139–143 of llama_shim.c: fetch the context's memory handle and,
when it is non-NULL, clear it.  Returns the updated context and the trace
of engine operations. -/
def rm_memory_reset (ctx : Ctx) : Ctx × List EngineOp :=
  match ctx.mem with
  | some _ => ({ ctx with mem := some [] }, [EngineOp.memoryClear])
  | none => (ctx, [])

/-- Lines 145–148 of llama_shim.c: when either requested thread count is
positive, call `llama_set_n_threads ctx n_threads n_threads_batch`, which
assigns both thread fields of the context to the passed values. -/
def rm_thread_step (ctx : Ctx) (n_threads n_threads_batch : Int) : Ctx × List EngineOp :=
  if n_threads > 0 ∨ n_threads_batch > 0 then
    ({ ctx with nThreads := n_threads, nThreadsBatch := n_threads_batch },
      [EngineOp.setThreads n_threads n_threads_batch])
  else (ctx, [])

/-- The two state-mutating steps that precede tokenization: memory reset
then thread reconfiguration. -/
def rm_prelude (ctx : Ctx) (n_threads n_threads_batch : Int) : Ctx × List EngineOp :=
  let r := rm_memory_reset ctx
  let s := rm_thread_step r.1 n_threads n_threads_batch
  (s.1, r.2 ++ s.2)

/-- Outcome of the tokenization stage: an error code or the token
sequence, plus the trace of allocations and tokenizer invocations. -/
structure TokenizeOutcome where
  result : Except Int (List Token)
  trace : List EngineOp

/-- Lines 156–159 of llama_shim.c: the initial token-buffer capacity,
the byte length of the text plus 8, floored at 16. -/
def rm_initial_cap (text : String) : Int := max ((text.utf8ByteSize : Int) + 8) 16

/-- Lines 155–180 of llama_shim.c (the Token Buffer Manager): allocate a
buffer of capacity `rm_initial_cap text`, tokenize; on a negative
tokenizer return, reallocate to exactly the absolute value of that
return and retry exactly once; a non-positive final count is error `-5`,
a failed allocation is error `-4`. -/
def rm_tokenize_text (eng : Engine) (vocab : Vocab) (text : String)
    (add_special parse_special : Bool) : TokenizeOutcome :=
  let text_len : Int := (text.utf8ByteSize : Int)
  let cap0 : Int := rm_initial_cap text
  if eng.mallocOk 0 cap0 = false then
    ⟨Except.error (-4), [EngineOp.allocOp cap0]⟩
  else
    let r0 := vocab.tokRet text text_len add_special parse_special cap0
    if r0 < 0 then
      let needed := -r0
      if eng.mallocOk 1 needed = false then
        ⟨Except.error (-4),
          [EngineOp.allocOp cap0, EngineOp.tokenizeOp cap0, EngineOp.allocOp needed]⟩
      else
        let r1 := vocab.tokRet text text_len add_special parse_special needed
        if r1 ≤ 0 then
          ⟨Except.error (-5),
            [EngineOp.allocOp cap0, EngineOp.tokenizeOp cap0,
              EngineOp.allocOp needed, EngineOp.tokenizeOp needed]⟩
        else
          ⟨Except.ok ((vocab.tokOut text text_len add_special parse_special needed).take r1.toNat),
            [EngineOp.allocOp cap0, EngineOp.tokenizeOp cap0,
              EngineOp.allocOp needed, EngineOp.tokenizeOp needed]⟩
    else if r0 = 0 then
      ⟨Except.error (-5), [EngineOp.allocOp cap0, EngineOp.tokenizeOp cap0]⟩
    else
      ⟨Except.ok ((vocab.tokOut text text_len add_special parse_special cap0).take r0.toNat),
        [EngineOp.allocOp cap0, EngineOp.tokenizeOp cap0]⟩

/-- Lines 150–206 of llama_shim.c: everything after the prelude, given
the already-reset-and-reconfigured context `ctx2`: vocabulary fetch,
tokenization, forward pass, embedding retrieval and output writing. -/
def rm_embed_core (eng : Engine) (ctx2 : Ctx) (model : Model) (text : String)
    (add_special parse_special : Bool) (out : List ℚ) (normalize : Int) : ExtractResult :=
  match model.vocab with
  | none => ⟨-3, some out, some ctx2, [EngineOp.getVocab]⟩
  | some vocab =>
    let tk := rm_tokenize_text eng vocab text add_special parse_special
    match tk.result with
    | Except.error e => ⟨e, some out, some ctx2, EngineOp.getVocab :: tk.trace⟩
    | Except.ok tokens =>
      let dec := eng.decode ctx2 tokens
      if dec.1 ≠ 0 then
        ⟨dec.1, some out, some dec.2,
          EngineOp.getVocab :: tk.trace ++ [EngineOp.decodeOp ctx2 tokens]⟩
      else
        match eng.embSeq dec.2 with
        | some embd =>
          ⟨0, some (rm_write_output eng.sqrtFn normalize out embd model.n_embd), some dec.2,
            EngineOp.getVocab :: tk.trace ++ [EngineOp.decodeOp ctx2 tokens, EngineOp.embSeqOp]⟩
        | none =>
          match eng.embRaw dec.2 with
          | some embd =>
            ⟨0, some (rm_write_output eng.sqrtFn normalize out embd model.n_embd), some dec.2,
              EngineOp.getVocab :: tk.trace ++
                [EngineOp.decodeOp ctx2 tokens, EngineOp.embSeqOp, EngineOp.embRawOp]⟩
          | none =>
            ⟨-6, some out, some dec.2,
              EngineOp.getVocab :: tk.trace ++
                [EngineOp.decodeOp ctx2 tokens, EngineOp.embSeqOp, EngineOp.embRawOp]⟩

/-- Lines 118–207 of llama_shim.c: the full `rm_llama_embed_text`.
NULL arguments are `none`; the guard on the embedding dimension and the
output length precedes every engine operation. -/
def rm_llama_embed_text (eng : Engine) (ctx? : Option Ctx) (model? : Option Model)
    (text? : Option String) (add_special parse_special : Bool)
    (out? : Option (List ℚ)) (out_len : Int)
    (n_threads n_threads_batch : Int) (normalize : Int) : ExtractResult :=
  match ctx?, model?, text?, out? with
  | some ctx, some model, some text, some out =>
    if model.n_embd ≤ 0 ∨ out_len < model.n_embd then ⟨-2, some out, some ctx, []⟩
    else
      let p := rm_prelude ctx n_threads n_threads_batch
      let core := rm_embed_core eng p.1 model text add_special parse_special out normalize
      ⟨core.rc, core.buf, core.ctx, p.2 ++ core.trace⟩
  | _, _, _, _ => ⟨-1, out?, ctx?, []⟩

/-- The capacities passed to the tokenizer, in order of invocation. -/
def tokenizeCaps (tr : List EngineOp) : List Int :=
  tr.filterMap fun op =>
    match op with
    | EngineOp.tokenizeOp c => some c
    | _ => none

/-! Concrete engine, model and context instances used to witness the
hypotheses of the theorems below. -/

/-- A vocabulary whose tokenizer succeeds with three tokens whenever the
capacity is at least 16. -/
def vocabA : Vocab :=
  { tokRet := fun _ _ _ _ cap => if 16 ≤ cap then 3 else -3
    tokOut := fun _ _ _ _ _ => [10, 11, 12] }

/-- A vocabulary whose tokenizer overflows every buffer except one of
exactly 42 slots, for which it reports five tokens. -/
def vocabB : Vocab :=
  { tokRet := fun _ _ _ _ cap => if cap = 42 then 5 else -42
    tokOut := fun _ _ _ _ _ => [1, 2, 3, 4, 5, 6] }

/-- An engine whose forward pass succeeds without touching the context
and whose pooled-embedding accessor returns `[3, 4]`. -/
def engA : Engine :=
  { mallocOk := fun _ _ => true
    decode := fun c _ => (0, c)
    embSeq := fun _ => some [3, 4]
    embRaw := fun _ => none
    sqrtFn := fun _ => 5 }

/-- A model with embedding dimension 2 and the `vocabA` vocabulary. -/
def modelA : Model := { n_embd := 2, vocab := some vocabA }

/-- A model whose vocabulary handle is NULL. -/
def modelNoVocab : Model := { n_embd := 2, vocab := none }

/-- A degenerate model reporting embedding dimension 0. -/
def modelZero : Model := { n_embd := 0, vocab := some vocabA }

/-- A context with residue `[7]` in its attention memory and thread
settings `(1, 7)`. -/
def ctxA : Ctx := { mem := some [7], nThreads := 1, nThreadsBatch := 7 }

/-- Claim C6: with non-null arguments and an output buffer strictly
smaller than the model's embedding dimension, the call returns the
OutputBufferTooSmall code `-2`, performs no engine operation (empty
trace), leaves the output buffer unwritten and the context untouched. -/
theorem rm_llama_embed_text_output_guard
    (eng : Engine) (ctx : Ctx) (model : Model) (text : String)
    (add_special parse_special : Bool) (out : List ℚ) (out_len : Int)
    (n_threads n_threads_batch normalize : Int)
    (hlen : out_len < model.n_embd) :
    rm_llama_embed_text eng (some ctx) (some model) (some text)
      add_special parse_special (some out) out_len n_threads n_threads_batch normalize
      = ⟨-2, some out, some ctx, []⟩ := by
  simp only [rm_llama_embed_text]
  rw [if_pos (Or.inr hlen)]

/-- Witness for C6 at a concrete input: buffer of capacity 1 against
embedding dimension 2. -/
theorem rm_llama_embed_text_output_guard_witness :
    (1 : Int) < modelA.n_embd ∧
    rm_llama_embed_text engA (some ctxA) (some modelA) (some "hi")
      true false (some [0]) 1 0 0 0
      = ⟨-2, some [0], some ctxA, []⟩ :=
  ⟨by decide,
    rm_llama_embed_text_output_guard engA ctxA modelA "hi" true false [0] 1 0 0 0 (by decide)⟩

/-- Claim C10: a model reporting a non-positive embedding dimension makes
the call fail with the same code `-2` as OutputBufferTooSmall, for every
output buffer length however large, before any engine operation. -/
theorem rm_llama_embed_text_degenerate_model
    (eng : Engine) (ctx : Ctx) (model : Model) (text : String)
    (add_special parse_special : Bool) (out : List ℚ) (out_len : Int)
    (n_threads n_threads_batch normalize : Int)
    (hembd : model.n_embd ≤ 0) :
    rm_llama_embed_text eng (some ctx) (some model) (some text)
      add_special parse_special (some out) out_len n_threads n_threads_batch normalize
      = ⟨-2, some out, some ctx, []⟩ := by
  simp only [rm_llama_embed_text]
  rw [if_pos (Or.inl hembd)]

/-- Witness for C10 at a concrete input: embedding dimension 0 with a
large buffer of capacity 100. -/
theorem rm_llama_embed_text_degenerate_model_witness :
    modelZero.n_embd ≤ 0 ∧
    rm_llama_embed_text engA (some ctxA) (some modelZero) (some "hi")
      true false (some [0]) 100 0 0 0
      = ⟨-2, some [0], some ctxA, []⟩ :=
  ⟨by decide,
    rm_llama_embed_text_degenerate_model engA ctxA modelZero "hi" true false [0] 100 0 0 0
      (by decide)⟩

/-! Helper lemmas about the shapes of traces and intermediate states. -/

/-- The tokenization stage never records a forward pass. -/
theorem rm_tokenize_text_no_decode (eng : Engine) (vocab : Vocab) (text : String)
    (add_special parse_special : Bool) (c : Ctx) (ts : List Token) :
    EngineOp.decodeOp c ts ∉ (rm_tokenize_text eng vocab text add_special parse_special).trace := by
  simp only [rm_tokenize_text]
  split_ifs <;> simp

/-- The tokenization stage never records a thread reconfiguration. -/
theorem rm_tokenize_text_no_threads (eng : Engine) (vocab : Vocab) (text : String)
    (add_special parse_special : Bool) (a b : Int) :
    EngineOp.setThreads a b ∉ (rm_tokenize_text eng vocab text add_special parse_special).trace := by
  simp only [rm_tokenize_text]
  split_ifs <;> simp

/-- Every forward pass recorded by the post-prelude stage was given
exactly the context the prelude produced. -/
theorem rm_embed_core_decode_ctx (eng : Engine) (ctx2 : Ctx) (model : Model) (text : String)
    (add_special parse_special : Bool) (out : List ℚ) (normalize : Int) (c : Ctx)
    (ts : List Token)
    (h : EngineOp.decodeOp c ts
        ∈ (rm_embed_core eng ctx2 model text add_special parse_special out normalize).trace) :
    c = ctx2 := by
  simp only [rm_embed_core] at h
  split at h
  · simp at h
  · rename_i vocab hv
    split at h
    · simp [rm_tokenize_text_no_decode eng vocab text add_special parse_special c ts] at h
    · rename_i tokens htk
      split at h
      · simp [rm_tokenize_text_no_decode eng vocab text add_special parse_special c ts] at h
        exact h.1
      · split at h
        · simp [rm_tokenize_text_no_decode eng vocab text add_special parse_special c ts] at h
          exact h.1
        · split at h
          · simp [rm_tokenize_text_no_decode eng vocab text add_special parse_special c ts] at h
            exact h.1
          · simp [rm_tokenize_text_no_decode eng vocab text add_special parse_special c ts] at h
            exact h.1

/-- The post-prelude stage never records a thread reconfiguration. -/
theorem rm_embed_core_no_threads (eng : Engine) (ctx2 : Ctx) (model : Model) (text : String)
    (add_special parse_special : Bool) (out : List ℚ) (normalize : Int) (a b : Int) :
    EngineOp.setThreads a b
      ∉ (rm_embed_core eng ctx2 model text add_special parse_special out normalize).trace := by
  intro h
  simp only [rm_embed_core] at h
  split at h
  · simp at h
  · rename_i vocab hv
    split at h
    · simp [rm_tokenize_text_no_threads eng vocab text add_special parse_special a b] at h
    · rename_i tokens htk
      split at h
      · simp [rm_tokenize_text_no_threads eng vocab text add_special parse_special a b] at h
      · split at h
        · simp [rm_tokenize_text_no_threads eng vocab text add_special parse_special a b] at h
        · split at h
          · simp [rm_tokenize_text_no_threads eng vocab text add_special parse_special a b] at h
          · simp [rm_tokenize_text_no_threads eng vocab text add_special parse_special a b] at h

/-- When the context has a (non-NULL) memory handle, the reset step
clears it and records the clear. -/
theorem rm_memory_reset_of_isSome (ctx : Ctx) (h : ctx.mem.isSome) :
    rm_memory_reset ctx = ({ ctx with mem := some [] }, [EngineOp.memoryClear]) := by
  rcases hm : ctx.mem with _ | l
  · rw [hm] at h; simp at h
  · unfold rm_memory_reset; rw [hm]

/-- The reset step does not touch the thread settings. -/
theorem rm_memory_reset_threads (ctx : Ctx) :
    (rm_memory_reset ctx).1.nThreads = ctx.nThreads ∧
    (rm_memory_reset ctx).1.nThreadsBatch = ctx.nThreadsBatch := by
  rcases hm : ctx.mem with _ | l <;> simp [rm_memory_reset, hm]

/-- The thread step does not touch the attention memory. -/
theorem rm_thread_step_mem (ctx : Ctx) (a b : Int) :
    (rm_thread_step ctx a b).1.mem = ctx.mem := by
  unfold rm_thread_step
  split <;> rfl

/-- When either requested thread count is positive, the thread step
assigns both fields and records the call. -/
theorem rm_thread_step_pos (ctx : Ctx) (a b : Int) (h : a > 0 ∨ b > 0) :
    rm_thread_step ctx a b
      = ({ ctx with nThreads := a, nThreadsBatch := b }, [EngineOp.setThreads a b]) := by
  unfold rm_thread_step
  rw [if_pos h]

/-- When both requested thread counts are non-positive, the thread step
does nothing. -/
theorem rm_thread_step_nonpos (ctx : Ctx) (a b : Int) (h : ¬(a > 0 ∨ b > 0)) :
    rm_thread_step ctx a b = (ctx, []) := by
  unfold rm_thread_step
  rw [if_neg h]

/-- The prelude trace never contains a forward pass. -/
theorem rm_prelude_no_decode (ctx : Ctx) (a b : Int) (c : Ctx) (ts : List Token) :
    EngineOp.decodeOp c ts ∉ (rm_prelude ctx a b).2 := by
  simp only [rm_prelude, rm_memory_reset, rm_thread_step]
  split <;> split_ifs <;> simp

/-- Claim C2: in every extraction call that passes the null checks and the
output-buffer check, clearing the context's attention memory is the first
engine operation of the call (so tokenization and the forward pass, which
are distinct operations, can only happen after it), and every forward pass
recorded in the call's trace was given a context whose attention memory
was in the cleared state. -/
theorem rm_llama_embed_text_reset_first
    (eng : Engine) (ctx : Ctx) (model : Model) (text : String)
    (add_special parse_special : Bool) (out : List ℚ) (out_len : Int)
    (n_threads n_threads_batch normalize : Int)
    (hembd : 0 < model.n_embd) (hout : model.n_embd ≤ out_len)
    (hmem : ctx.mem.isSome) :
    (rm_llama_embed_text eng (some ctx) (some model) (some text) add_special parse_special
        (some out) out_len n_threads n_threads_batch normalize).trace.head?
      = some EngineOp.memoryClear ∧
    ∀ c ts,
      EngineOp.decodeOp c ts
          ∈ (rm_llama_embed_text eng (some ctx) (some model) (some text) add_special
              parse_special (some out) out_len n_threads n_threads_batch normalize).trace →
        c.mem = some [] := by
  have hguard : ¬(model.n_embd ≤ 0 ∨ out_len < model.n_embd) := by
    push_neg
    exact ⟨hembd, hout⟩
  have hp2 : (rm_prelude ctx n_threads n_threads_batch).2
      = EngineOp.memoryClear
          :: (rm_thread_step { ctx with mem := some [] } n_threads n_threads_batch).2 := by
    simp [rm_prelude, rm_memory_reset_of_isSome ctx hmem]
  have hp1 : (rm_prelude ctx n_threads n_threads_batch).1.mem = some [] := by
    simp [rm_prelude, rm_memory_reset_of_isSome ctx hmem, rm_thread_step_mem]
  simp only [rm_llama_embed_text]
  rw [if_neg hguard]
  constructor
  · simp [hp2]
  · intro c ts h
    simp only [List.mem_append] at h
    rcases h with h | h
    · exact absurd h (rm_prelude_no_decode ctx n_threads n_threads_batch c ts)
    · have hc := rm_embed_core_decode_ctx eng _ model text add_special parse_special out
        normalize c ts h
      rw [hc]
      exact hp1

/-- Witness for C2 at a concrete input: context `ctxA` carries residue
`[7]` in its attention memory. -/
theorem rm_llama_embed_text_reset_first_witness :
    (0 : Int) < modelA.n_embd ∧ modelA.n_embd ≤ 2 ∧ ctxA.mem.isSome ∧
    ((rm_llama_embed_text engA (some ctxA) (some modelA) (some "hi") true false
        (some [0, 0]) 2 0 0 2).trace.head? = some EngineOp.memoryClear ∧
      ∀ c ts,
        EngineOp.decodeOp c ts
            ∈ (rm_llama_embed_text engA (some ctxA) (some modelA) (some "hi") true false
                (some [0, 0]) 2 0 0 2).trace →
          c.mem = some []) :=
  ⟨by decide, by decide, by decide,
    rm_llama_embed_text_reset_first engA ctxA modelA "hi" true false [0, 0] 2 0 0 2
      (by decide) (by decide) (by decide)⟩

/-- Claim C3 (amended): when either requested thread count is positive,
the call invokes the engine's thread setter with both raw requested
values, so both of the context's thread settings are assigned the passed
values — a non-positive companion value overwrites the existing setting
rather than leaving it unchanged; only when both requested counts are
non-positive is neither thread setting modified. -/
theorem rm_llama_embed_text_thread_settings
    (eng : Engine) (ctx : Ctx) (model : Model) (text : String)
    (add_special parse_special : Bool) (out : List ℚ) (out_len : Int)
    (n_threads n_threads_batch normalize : Int)
    (hembd : 0 < model.n_embd) (hout : model.n_embd ≤ out_len) :
    ((n_threads > 0 ∨ n_threads_batch > 0) →
      EngineOp.setThreads n_threads n_threads_batch
          ∈ (rm_llama_embed_text eng (some ctx) (some model) (some text) add_special
              parse_special (some out) out_len n_threads n_threads_batch normalize).trace ∧
      ∀ c ts,
        EngineOp.decodeOp c ts
            ∈ (rm_llama_embed_text eng (some ctx) (some model) (some text) add_special
                parse_special (some out) out_len n_threads n_threads_batch normalize).trace →
          c.nThreads = n_threads ∧ c.nThreadsBatch = n_threads_batch) ∧
    (¬(n_threads > 0 ∨ n_threads_batch > 0) →
      (∀ a b,
        EngineOp.setThreads a b
          ∉ (rm_llama_embed_text eng (some ctx) (some model) (some text) add_special
              parse_special (some out) out_len n_threads n_threads_batch normalize).trace) ∧
      ∀ c ts,
        EngineOp.decodeOp c ts
            ∈ (rm_llama_embed_text eng (some ctx) (some model) (some text) add_special
                parse_special (some out) out_len n_threads n_threads_batch normalize).trace →
          c.nThreads = ctx.nThreads ∧ c.nThreadsBatch = ctx.nThreadsBatch) := by
  have hguard : ¬(model.n_embd ≤ 0 ∨ out_len < model.n_embd) := by
    push_neg
    exact ⟨hembd, hout⟩
  simp only [rm_llama_embed_text]
  rw [if_neg hguard]
  constructor
  · intro hpos
    have hstep := rm_thread_step_pos (rm_memory_reset ctx).1 n_threads n_threads_batch hpos
    constructor
    · simp [rm_prelude, hstep]
    · intro c ts h
      simp only [List.mem_append] at h
      rcases h with h | h
      · exact absurd h (rm_prelude_no_decode ctx n_threads n_threads_batch c ts)
      · have hc := rm_embed_core_decode_ctx eng _ model text add_special parse_special out
          normalize c ts h
        rw [hc]
        simp [rm_prelude, hstep]
  · intro hpos
    have hstep := rm_thread_step_nonpos (rm_memory_reset ctx).1 n_threads n_threads_batch hpos
    constructor
    · intro a b h
      simp only [List.mem_append] at h
      rcases h with h | h
      · simp only [rm_prelude, hstep] at h
        rcases hm : ctx.mem with _ | l <;>
          simp [rm_memory_reset, hm] at h
      · exact absurd h (rm_embed_core_no_threads eng _ model text add_special parse_special
          out normalize a b)
    · intro c ts h
      simp only [List.mem_append] at h
      rcases h with h | h
      · exact absurd h (rm_prelude_no_decode ctx n_threads n_threads_batch c ts)
      · have hc := rm_embed_core_decode_ctx eng _ model text add_special parse_special out
          normalize c ts h
        rw [hc]
        simp only [rm_prelude, hstep]
        exact rm_memory_reset_threads ctx

/-- Witness for the amended C3 at a concrete input: requested counts
`(4, 0)`, so both settings are assigned, the batch one becoming 0. -/
theorem rm_llama_embed_text_thread_settings_witness :
    (0 : Int) < modelA.n_embd ∧ modelA.n_embd ≤ 2 ∧ ((4 : Int) > 0 ∨ (0 : Int) > 0) ∧
    (EngineOp.setThreads 4 0
        ∈ (rm_llama_embed_text engA (some ctxA) (some modelA) (some "hi") true false
            (some [0, 0]) 2 4 0 2).trace ∧
      ∀ c ts,
        EngineOp.decodeOp c ts
            ∈ (rm_llama_embed_text engA (some ctxA) (some modelA) (some "hi") true false
                (some [0, 0]) 2 4 0 2).trace →
          c.nThreads = 4 ∧ c.nThreadsBatch = 0) :=
  ⟨by decide, by decide, Or.inl (by decide),
    (rm_llama_embed_text_thread_settings engA ctxA modelA "hi" true false [0, 0] 2 4 0 2
        (by decide) (by decide)).1 (Or.inl (by decide))⟩

/-- Counterexample to C3 as stated: context `ctxA` has batch thread
setting 7; a call requesting thread counts `(4, 0)` (exactly one
positive) leaves the context with batch thread setting 0, not the
existing value 7 — the non-positive requested value is applied rather
than the existing engine value being kept.  The model lacking a
vocabulary makes the run stop right after the thread step, so the final
context is exactly the post-thread-step state. -/
theorem rm_llama_embed_text_thread_cex :
    ctxA.nThreadsBatch = 7 ∧
    (rm_llama_embed_text engA (some ctxA) (some modelNoVocab) (some "hi") true false
        (some [0, 0]) 2 4 0 0).ctx
      ≠ some { mem := some [], nThreads := 4, nThreadsBatch := 7 } ∧
    (rm_llama_embed_text engA (some ctxA) (some modelNoVocab) (some "hi") true false
        (some [0, 0]) 2 4 0 0).ctx
      = some { mem := some [], nThreads := 4, nThreadsBatch := 0 } := by
  refine ⟨rfl, ?_, rfl⟩
  decide

/-- The post-prelude stage either succeeds with return code 0 or leaves
the caller's buffer exactly as it was. -/
theorem rm_embed_core_rc_zero_or_untouched (eng : Engine) (ctx2 : Ctx) (model : Model)
    (text : String) (add_special parse_special : Bool) (out : List ℚ) (normalize : Int) :
    (rm_embed_core eng ctx2 model text add_special parse_special out normalize).rc = 0 ∨
    (rm_embed_core eng ctx2 model text add_special parse_special out normalize).buf
      = some out := by
  simp only [rm_embed_core]
  split
  · exact Or.inr rfl
  · split
    · exact Or.inr rfl
    · split
      · exact Or.inr rfl
      · split
        · exact Or.inl rfl
        · split
          · exact Or.inl rfl
          · exact Or.inr rfl

/-- Claim C4: whenever the call returns a non-zero code — on any failure
path, including null arguments, a too-small buffer, a missing
vocabulary, allocation failure, tokenization failure, a failed forward
pass, or unavailable embeddings — the caller's output buffer is returned
exactly as it was passed in: no element of it is modified. -/
theorem rm_llama_embed_text_error_untouched
    (eng : Engine) (ctx? : Option Ctx) (model? : Option Model) (text? : Option String)
    (add_special parse_special : Bool) (out? : Option (List ℚ)) (out_len : Int)
    (n_threads n_threads_batch normalize : Int)
    (h : (rm_llama_embed_text eng ctx? model? text? add_special parse_special out? out_len
        n_threads n_threads_batch normalize).rc ≠ 0) :
    (rm_llama_embed_text eng ctx? model? text? add_special parse_special out? out_len
        n_threads n_threads_batch normalize).buf = out? := by
  rcases ctx? with _ | ctx <;> rcases model? with _ | model <;>
    rcases text? with _ | text <;> rcases out? with _ | out <;>
    try rfl
  by_cases hguard : model.n_embd ≤ 0 ∨ out_len < model.n_embd
  · simp only [rm_llama_embed_text]
    rw [if_pos hguard]
  · simp only [rm_llama_embed_text] at h ⊢
    rw [if_neg hguard] at h ⊢
    rcases rm_embed_core_rc_zero_or_untouched eng
        (rm_prelude ctx n_threads n_threads_batch).1 model text add_special parse_special
        out normalize with h0 | hb
    · exact absurd h0 h
    · exact hb

/-- Witness for C4 at a concrete input: a NULL text pointer yields code
`-1` and the buffer `[1]` comes back exactly as passed. -/
theorem rm_llama_embed_text_error_untouched_witness :
    (rm_llama_embed_text engA (some ctxA) (some modelA) none true false (some [1]) 1
        0 0 0).rc ≠ 0 ∧
    (rm_llama_embed_text engA (some ctxA) (some modelA) none true false (some [1]) 1
        0 0 0).buf = some [1] :=
  ⟨by decide,
    rm_llama_embed_text_error_untouched engA (some ctxA) (some modelA) none true false
      (some [1]) 1 0 0 0 (by decide)⟩

/-- Contexts that agree on thread settings and on whether they have a
memory handle are indistinguishable after the reset step, whatever
residue their memories held. -/
theorem rm_memory_reset_congr (c1 c2 : Ctx) (hmem : c1.mem.isSome = c2.mem.isSome)
    (ht : c1.nThreads = c2.nThreads) (htb : c1.nThreadsBatch = c2.nThreadsBatch) :
    rm_memory_reset c1 = rm_memory_reset c2 := by
  rcases c1 with ⟨m1, t1, b1⟩
  rcases c2 with ⟨m2, t2, b2⟩
  dsimp at ht htb hmem
  subst ht
  subst htb
  rcases m1 with _ | l1 <;> rcases m2 with _ | l2 <;>
    simp_all [rm_memory_reset]

/-- Claim C1: with non-null arguments and an output buffer at least as
large as the model's embedding dimension, two runs with identical
arguments on contexts that differ only in the attention-memory residue
left by earlier calls produce identical return codes and bit-identical
output buffers. -/
theorem rm_llama_embed_text_memory_independent
    (eng : Engine) (c1 c2 : Ctx) (model : Model) (text : String)
    (add_special parse_special : Bool) (out : List ℚ) (out_len : Int)
    (n_threads n_threads_batch normalize : Int)
    (hmem : c1.mem.isSome = c2.mem.isSome)
    (ht : c1.nThreads = c2.nThreads) (htb : c1.nThreadsBatch = c2.nThreadsBatch)
    (hout : model.n_embd ≤ out_len) :
    (rm_llama_embed_text eng (some c1) (some model) (some text) add_special parse_special
        (some out) out_len n_threads n_threads_batch normalize).rc
      = (rm_llama_embed_text eng (some c2) (some model) (some text) add_special parse_special
          (some out) out_len n_threads n_threads_batch normalize).rc ∧
    (rm_llama_embed_text eng (some c1) (some model) (some text) add_special parse_special
        (some out) out_len n_threads n_threads_batch normalize).buf
      = (rm_llama_embed_text eng (some c2) (some model) (some text) add_special parse_special
          (some out) out_len n_threads n_threads_batch normalize).buf := by
  have hreset := rm_memory_reset_congr c1 c2 hmem ht htb
  simp only [rm_llama_embed_text, rm_prelude, hreset]
  constructor <;> (split_ifs <;> rfl)

/-- A context with different memory residue than `ctxA` but the same
thread settings. -/
def ctxB : Ctx := { mem := some [9, 9], nThreads := 1, nThreadsBatch := 7 }

/-- Witness for C1 at a concrete input: `ctxA` holds residue `[7]`,
`ctxB` holds residue `[9, 9]`; the runs agree. -/
theorem rm_llama_embed_text_memory_independent_witness :
    ctxA.mem.isSome = ctxB.mem.isSome ∧ ctxA.nThreads = ctxB.nThreads ∧
    ctxA.nThreadsBatch = ctxB.nThreadsBatch ∧ modelA.n_embd ≤ 2 ∧
    ((rm_llama_embed_text engA (some ctxA) (some modelA) (some "hi") true false
        (some [0, 0]) 2 0 0 2).rc
      = (rm_llama_embed_text engA (some ctxB) (some modelA) (some "hi") true false
          (some [0, 0]) 2 0 0 2).rc ∧
      (rm_llama_embed_text engA (some ctxA) (some modelA) (some "hi") true false
          (some [0, 0]) 2 0 0 2).buf
        = (rm_llama_embed_text engA (some ctxB) (some modelA) (some "hi") true false
            (some [0, 0]) 2 0 0 2).buf) :=
  ⟨by decide, by decide, by decide, by decide,
    rm_llama_embed_text_memory_independent engA ctxA ctxB modelA "hi" true false [0, 0] 2
      0 0 2 (by decide) (by decide) (by decide) (by decide)⟩

/-- Claim C7: for an input vector of length `n` under L2 mode, a
non-positive `n` is a no-op; when the square root of the exact sum of
squares is zero or negative the output is a verbatim copy of the input
(the identity-copy branch, so in particular no division happens); the
sum of squares of an all-zero input is exactly zero; an all-zero input of
length `n` yields an all-zero output of length `n`; and otherwise every
element is scaled by the single reciprocal `1 / norm`. -/
theorem rm_l2_normalize_spec (sq : ℚ → ℚ) (dst src : List ℚ) (n : Int) :
    (n ≤ 0 → rm_l2_normalize sq dst src n = dst) ∧
    (0 < n → sq (rm_sumsq src n) ≤ 0 →
      rm_l2_normalize sq dst src n = src.take n.toNat ++ dst.drop n.toNat) ∧
    (0 < n → 0 < sq (rm_sumsq src n) →
      rm_l2_normalize sq dst src n
        = (src.take n.toNat).map (fun v => v * (1 / sq (rm_sumsq src n)))
          ++ dst.drop n.toNat) ∧
    ((∀ v ∈ src, v = 0) → rm_sumsq src n = 0) ∧
    (0 < n → src = List.replicate n.toNat 0 → dst.length = n.toNat →
      rm_l2_normalize sq dst src n = List.replicate n.toNat 0) := by
  refine ⟨?_, ?_, ?_, ?_, ?_⟩
  · intro h
    simp [rm_l2_normalize, h]
  · intro h hn
    simp [rm_l2_normalize, rm_copy_f32, hn, not_le.mpr h]
  · intro h hn
    simp [rm_l2_normalize, not_le.mpr h, not_le.mpr hn]
  · intro hz
    apply List.sum_eq_zero
    intro x hx
    simp only [List.mem_map] at hx
    rcases hx with ⟨v, hv, rfl⟩
    rw [hz v (List.take_subset n.toNat src hv)]
    ring
  · intro hn hsrc hdst
    subst hsrc
    by_cases hq : sq (rm_sumsq (List.replicate n.toNat 0) n) ≤ 0
    · simp [rm_l2_normalize, rm_copy_f32, hq, not_le.mpr hn, List.take_replicate,
        List.drop_eq_nil_of_le (le_of_eq hdst)]
    · simp [rm_l2_normalize, hq, not_le.mpr hn, List.take_replicate,
        List.drop_eq_nil_of_le (le_of_eq hdst)]

/-- Witness for C7 at a concrete input: `sqrt` stub returning 5 on the
sum of squares of `[3, 4]`, scaling both entries by `1 / 5`. -/
theorem rm_l2_normalize_spec_witness :
    (0 : Int) < 2 ∧ (0 : ℚ) < 5 ∧
    rm_l2_normalize (fun _ => (5 : ℚ)) [8, 9] [3, 4] 2
      = (([3, 4] : List ℚ).take (2 : Int).toNat).map (fun v => v * (1 / 5))
        ++ ([8, 9] : List ℚ).drop (2 : Int).toNat :=
  ⟨by decide, by decide,
    (rm_l2_normalize_spec (fun _ => (5 : ℚ)) [8, 9] [3, 4] 2).2.2.1 (by decide) (by decide)⟩

/-- `tokenizeCaps` distributes over concatenation. -/
theorem tokenizeCaps_append (l1 l2 : List EngineOp) :
    tokenizeCaps (l1 ++ l2) = tokenizeCaps l1 ++ tokenizeCaps l2 :=
  List.filterMap_append l1 l2 _

/-- The prelude performs no tokenizer invocation. -/
theorem tokenizeCaps_prelude (ctx : Ctx) (a b : Int) :
    tokenizeCaps (rm_prelude ctx a b).2 = [] := by
  unfold rm_prelude rm_memory_reset rm_thread_step
  split <;> split_ifs <;> rfl

/-- The tokenizer invocations of the post-prelude stage are exactly the
ones of the tokenization stage. -/
theorem tokenizeCaps_core (eng : Engine) (ctx2 : Ctx) (model : Model) (text : String)
    (add_special parse_special : Bool) (out : List ℚ) (normalize : Int) (vocab : Vocab)
    (hvocab : model.vocab = some vocab) :
    tokenizeCaps
        (rm_embed_core eng ctx2 model text add_special parse_special out normalize).trace
      = tokenizeCaps (rm_tokenize_text eng vocab text add_special parse_special).trace := by
  simp only [rm_embed_core, hvocab]
  repeat' split
  all_goals simp [tokenizeCaps, tokenizeCaps_append]

/-- A tokenization-stage error becomes the return code of the
post-prelude stage. -/
theorem rm_embed_core_error_rc (eng : Engine) (ctx2 : Ctx) (model : Model) (text : String)
    (add_special parse_special : Bool) (out : List ℚ) (normalize : Int) (vocab : Vocab)
    (e : Int) (hvocab : model.vocab = some vocab)
    (he : (rm_tokenize_text eng vocab text add_special parse_special).result
      = Except.error e) :
    (rm_embed_core eng ctx2 model text add_special parse_special out normalize).rc = e := by
  simp only [rm_embed_core, hvocab, he]

/-- Claim C5: inside every extraction call that reaches tokenization
(guards passed, vocabulary present), tokenization follows exactly this
protocol: the whole call's tokenizer invocations are those of the
tokenization stage, and a tokenization-stage error code is returned
verbatim; if the first allocation fails the code is `-4` with no
tokenizer invocation; a non-negative first tokenizer return (obtained
with capacity `rm_initial_cap text`) means exactly one invocation, with
error `-5` when the count is zero; a negative first return leads to a
reallocation to exactly the absolute value of that return and exactly
one retry — never a third invocation — with `-4` when that allocation
fails and `-5` when the retried count is non-positive. -/
theorem rm_llama_embed_text_tokenize_protocol
    (eng : Engine) (ctx : Ctx) (model : Model) (text : String)
    (add_special parse_special : Bool) (out : List ℚ) (out_len : Int)
    (n_threads n_threads_batch normalize : Int) (vocab : Vocab)
    (hembd : 0 < model.n_embd) (hout : model.n_embd ≤ out_len)
    (hvocab : model.vocab = some vocab) :
    tokenizeCaps
        (rm_llama_embed_text eng (some ctx) (some model) (some text) add_special
          parse_special (some out) out_len n_threads n_threads_batch normalize).trace
      = tokenizeCaps (rm_tokenize_text eng vocab text add_special parse_special).trace ∧
    (∀ e, (rm_tokenize_text eng vocab text add_special parse_special).result
        = Except.error e →
      (rm_llama_embed_text eng (some ctx) (some model) (some text) add_special
          parse_special (some out) out_len n_threads n_threads_batch normalize).rc = e) ∧
    (eng.mallocOk 0 (rm_initial_cap text) = false →
      (rm_tokenize_text eng vocab text add_special parse_special).result
          = Except.error (-4) ∧
      tokenizeCaps (rm_tokenize_text eng vocab text add_special parse_special).trace
        = []) ∧
    (eng.mallocOk 0 (rm_initial_cap text) = true →
      0 ≤ vocab.tokRet text (text.utf8ByteSize : Int) add_special parse_special
          (rm_initial_cap text) →
      tokenizeCaps (rm_tokenize_text eng vocab text add_special parse_special).trace
          = [rm_initial_cap text] ∧
      (vocab.tokRet text (text.utf8ByteSize : Int) add_special parse_special
          (rm_initial_cap text) = 0 →
        (rm_tokenize_text eng vocab text add_special parse_special).result
          = Except.error (-5))) ∧
    (eng.mallocOk 0 (rm_initial_cap text) = true →
      vocab.tokRet text (text.utf8ByteSize : Int) add_special parse_special
          (rm_initial_cap text) < 0 →
      eng.mallocOk 1
          (-vocab.tokRet text (text.utf8ByteSize : Int) add_special parse_special
            (rm_initial_cap text)) = false →
      (rm_tokenize_text eng vocab text add_special parse_special).result
          = Except.error (-4) ∧
      tokenizeCaps (rm_tokenize_text eng vocab text add_special parse_special).trace
          = [rm_initial_cap text]) ∧
    (eng.mallocOk 0 (rm_initial_cap text) = true →
      vocab.tokRet text (text.utf8ByteSize : Int) add_special parse_special
          (rm_initial_cap text) < 0 →
      eng.mallocOk 1
          (-vocab.tokRet text (text.utf8ByteSize : Int) add_special parse_special
            (rm_initial_cap text)) = true →
      tokenizeCaps (rm_tokenize_text eng vocab text add_special parse_special).trace
          = [rm_initial_cap text,
              -vocab.tokRet text (text.utf8ByteSize : Int) add_special parse_special
                (rm_initial_cap text)] ∧
      (vocab.tokRet text (text.utf8ByteSize : Int) add_special parse_special
          (-vocab.tokRet text (text.utf8ByteSize : Int) add_special parse_special
            (rm_initial_cap text)) ≤ 0 →
        (rm_tokenize_text eng vocab text add_special parse_special).result
          = Except.error (-5))) := by
  have hguard : ¬(model.n_embd ≤ 0 ∨ out_len < model.n_embd) := by
    push_neg
    exact ⟨hembd, hout⟩
  refine ⟨?_, ?_, ?_, ?_, ?_, ?_⟩
  · simp only [rm_llama_embed_text]
    rw [if_neg hguard]
    simp [tokenizeCaps_append, tokenizeCaps_prelude,
      tokenizeCaps_core eng _ model text add_special parse_special out normalize vocab hvocab]
  · intro e he
    simp only [rm_llama_embed_text]
    rw [if_neg hguard]
    exact rm_embed_core_error_rc eng _ model text add_special parse_special out normalize
      vocab e hvocab he
  · intro hm
    constructor <;> simp [rm_tokenize_text, hm, tokenizeCaps]
  · intro hm hr0
    constructor
    · by_cases hz : vocab.tokRet text (text.utf8ByteSize : Int) add_special parse_special
          (rm_initial_cap text) = 0 <;>
        simp [rm_tokenize_text, hm, not_lt.mpr hr0, hz, tokenizeCaps]
    · intro hz
      simp [rm_tokenize_text, hm, not_lt.mpr hr0, hz]
  · intro hm hr0 hm1
    constructor <;> simp [rm_tokenize_text, hm, hr0, hm1, tokenizeCaps]
  · intro hm hr0 hm1
    constructor
    · by_cases hz : vocab.tokRet text (text.utf8ByteSize : Int) add_special parse_special
          (-vocab.tokRet text (text.utf8ByteSize : Int) add_special parse_special
            (rm_initial_cap text)) ≤ 0 <;>
        simp [rm_tokenize_text, hm, hr0, hm1, hz, tokenizeCaps]
    · intro hz
      simp [rm_tokenize_text, hm, hr0, hm1, hz]

/-- A model with embedding dimension 2 and the overflowing `vocabB`
vocabulary. -/
def modelB : Model := { n_embd := 2, vocab := some vocabB }

/-- Witness for C5 at a concrete input: the `vocabB` tokenizer overflows
the initial capacity 16 reporting a required capacity of 42, so the call
reallocates to exactly 42 and retries exactly once. -/
theorem rm_llama_embed_text_tokenize_protocol_witness :
    engA.mallocOk 0 (rm_initial_cap "hi") = true ∧
    vocabB.tokRet "hi" (("hi").utf8ByteSize : Int) true false (rm_initial_cap "hi") < 0 ∧
    engA.mallocOk 1
        (-vocabB.tokRet "hi" (("hi").utf8ByteSize : Int) true false (rm_initial_cap "hi"))
      = true ∧
    (tokenizeCaps (rm_tokenize_text engA vocabB "hi" true false).trace
        = [rm_initial_cap "hi",
            -vocabB.tokRet "hi" (("hi").utf8ByteSize : Int) true false
              (rm_initial_cap "hi")] ∧
      (vocabB.tokRet "hi" (("hi").utf8ByteSize : Int) true false
          (-vocabB.tokRet "hi" (("hi").utf8ByteSize : Int) true false (rm_initial_cap "hi"))
          ≤ 0 →
        (rm_tokenize_text engA vocabB "hi" true false).result = Except.error (-5))) :=
  ⟨rfl, by decide, rfl,
    (rm_llama_embed_text_tokenize_protocol engA ctxA modelB "hi" true false [0, 0] 2 0 0 0
        vocabB (by decide) (by decide) rfl).2.2.2.2.2 rfl (by decide) rfl⟩

/-- The tokenization stage never consults the raw-embedding accessor. -/
theorem rm_tokenize_text_no_embRaw (eng : Engine) (vocab : Vocab) (text : String)
    (add_special parse_special : Bool) :
    EngineOp.embRawOp ∉ (rm_tokenize_text eng vocab text add_special parse_special).trace := by
  simp only [rm_tokenize_text]
  split_ifs <;> simp

/-- The prelude never consults the raw-embedding accessor. -/
theorem rm_prelude_no_embRaw (ctx : Ctx) (a b : Int) :
    EngineOp.embRawOp ∉ (rm_prelude ctx a b).2 := by
  unfold rm_prelude rm_memory_reset rm_thread_step
  split <;> split_ifs <;> simp

/-- Claim C8: after a successful forward pass, the pooled per-sequence
embedding for sequence 0 is used as the result whenever it is available —
in that case the raw accessor is never consulted; only when the pooled
embedding is unavailable is the raw accessor consulted and its vector
used; when both are unavailable the call fails with the
EmbeddingsUnavailable code `-6` and the buffer is untouched. -/
theorem rm_llama_embed_text_embedding_preference
    (eng : Engine) (ctx : Ctx) (model : Model) (text : String)
    (add_special parse_special : Bool) (out : List ℚ) (out_len : Int)
    (n_threads n_threads_batch normalize : Int) (vocab : Vocab) (tokens : List Token)
    (hembd : 0 < model.n_embd) (hout : model.n_embd ≤ out_len)
    (hvocab : model.vocab = some vocab)
    (htok : (rm_tokenize_text eng vocab text add_special parse_special).result
      = Except.ok tokens)
    (hdec : (eng.decode (rm_prelude ctx n_threads n_threads_batch).1 tokens).1 = 0) :
    (∀ v, eng.embSeq (eng.decode (rm_prelude ctx n_threads n_threads_batch).1 tokens).2
        = some v →
      (rm_llama_embed_text eng (some ctx) (some model) (some text) add_special
          parse_special (some out) out_len n_threads n_threads_batch normalize).rc = 0 ∧
      (rm_llama_embed_text eng (some ctx) (some model) (some text) add_special
          parse_special (some out) out_len n_threads n_threads_batch normalize).buf
        = some (rm_write_output eng.sqrtFn normalize out v model.n_embd) ∧
      EngineOp.embRawOp
        ∉ (rm_llama_embed_text eng (some ctx) (some model) (some text) add_special
            parse_special (some out) out_len n_threads n_threads_batch normalize).trace) ∧
    (eng.embSeq (eng.decode (rm_prelude ctx n_threads n_threads_batch).1 tokens).2
        = none →
      ∀ v, eng.embRaw (eng.decode (rm_prelude ctx n_threads n_threads_batch).1 tokens).2
          = some v →
        (rm_llama_embed_text eng (some ctx) (some model) (some text) add_special
            parse_special (some out) out_len n_threads n_threads_batch normalize).rc = 0 ∧
        (rm_llama_embed_text eng (some ctx) (some model) (some text) add_special
            parse_special (some out) out_len n_threads n_threads_batch normalize).buf
          = some (rm_write_output eng.sqrtFn normalize out v model.n_embd)) ∧
    (eng.embSeq (eng.decode (rm_prelude ctx n_threads n_threads_batch).1 tokens).2
        = none →
      eng.embRaw (eng.decode (rm_prelude ctx n_threads n_threads_batch).1 tokens).2
        = none →
      (rm_llama_embed_text eng (some ctx) (some model) (some text) add_special
          parse_special (some out) out_len n_threads n_threads_batch normalize).rc = -6 ∧
      (rm_llama_embed_text eng (some ctx) (some model) (some text) add_special
          parse_special (some out) out_len n_threads n_threads_batch normalize).buf
        = some out) := by
  have hguard : ¬(model.n_embd ≤ 0 ∨ out_len < model.n_embd) := by
    push_neg
    exact ⟨hembd, hout⟩
  refine ⟨?_, ?_, ?_⟩
  · intro v hs
    simp only [rm_llama_embed_text]
    rw [if_neg hguard]
    simp only [rm_embed_core, hvocab, htok, hdec, hs]
    refine ⟨rfl, rfl, ?_⟩
    simp [rm_prelude_no_embRaw ctx n_threads n_threads_batch,
      rm_tokenize_text_no_embRaw eng vocab text add_special parse_special]
  · intro hs v hr
    simp only [rm_llama_embed_text]
    rw [if_neg hguard]
    simp only [rm_embed_core, hvocab, htok, hdec, hs, hr]
    exact ⟨rfl, rfl⟩
  · intro hs hr
    simp only [rm_llama_embed_text]
    rw [if_neg hguard]
    simp only [rm_embed_core, hvocab, htok, hdec, hs, hr]
    exact ⟨rfl, rfl⟩

/-- Witness for C8 at a concrete input: pooled embedding `[3, 4]` is
available and used; the raw accessor is never consulted. -/
theorem rm_llama_embed_text_embedding_preference_witness :
    (rm_tokenize_text engA vocabA "hi" true false).result = Except.ok [10, 11, 12] ∧
    (engA.decode (rm_prelude ctxA 0 0).1 [10, 11, 12]).1 = 0 ∧
    engA.embSeq (engA.decode (rm_prelude ctxA 0 0).1 [10, 11, 12]).2 = some [3, 4] ∧
    ((rm_llama_embed_text engA (some ctxA) (some modelA) (some "hi") true false
        (some [0, 0]) 2 0 0 2).rc = 0 ∧
      (rm_llama_embed_text engA (some ctxA) (some modelA) (some "hi") true false
          (some [0, 0]) 2 0 0 2).buf
        = some (rm_write_output engA.sqrtFn 2 [0, 0] [3, 4] modelA.n_embd) ∧
      EngineOp.embRawOp
        ∉ (rm_llama_embed_text engA (some ctxA) (some modelA) (some "hi") true false
            (some [0, 0]) 2 0 0 2).trace) :=
  ⟨rfl, rfl, rfl,
    (rm_llama_embed_text_embedding_preference engA ctxA modelA "hi" true false [0, 0] 2
        0 0 2 vocabA [10, 11, 12] (by decide) (by decide) rfl rfl rfl).1 [3, 4] rfl⟩

/-- Claim C9: every normalization-mode value other than 2 — including
values left undefined by the header such as 1 or 3, not only the defined
mode 0 — makes the call copy the retrieved embedding to the output
verbatim and return success: unrecognized modes are not rejected anywhere
in this core and behave exactly as mode "none". -/
theorem rm_llama_embed_text_mode_fallthrough
    (eng : Engine) (ctx : Ctx) (model : Model) (text : String)
    (add_special parse_special : Bool) (out : List ℚ) (out_len : Int)
    (n_threads n_threads_batch normalize : Int) (vocab : Vocab) (tokens : List Token)
    (hnorm : normalize ≠ 2)
    (hembd : 0 < model.n_embd) (hout : model.n_embd ≤ out_len)
    (hvocab : model.vocab = some vocab)
    (htok : (rm_tokenize_text eng vocab text add_special parse_special).result
      = Except.ok tokens)
    (hdec : (eng.decode (rm_prelude ctx n_threads n_threads_batch).1 tokens).1 = 0) :
    (∀ sq dst src n, rm_write_output sq normalize dst src n = rm_copy_f32 dst src n) ∧
    (∀ v, eng.embSeq (eng.decode (rm_prelude ctx n_threads n_threads_batch).1 tokens).2
        = some v →
      (rm_llama_embed_text eng (some ctx) (some model) (some text) add_special
          parse_special (some out) out_len n_threads n_threads_batch normalize).rc = 0 ∧
      (rm_llama_embed_text eng (some ctx) (some model) (some text) add_special
          parse_special (some out) out_len n_threads n_threads_batch normalize).buf
        = some (rm_copy_f32 out v model.n_embd)) ∧
    (eng.embSeq (eng.decode (rm_prelude ctx n_threads n_threads_batch).1 tokens).2
        = none →
      ∀ v, eng.embRaw (eng.decode (rm_prelude ctx n_threads n_threads_batch).1 tokens).2
          = some v →
        (rm_llama_embed_text eng (some ctx) (some model) (some text) add_special
            parse_special (some out) out_len n_threads n_threads_batch normalize).rc = 0 ∧
        (rm_llama_embed_text eng (some ctx) (some model) (some text) add_special
            parse_special (some out) out_len n_threads n_threads_batch normalize).buf
          = some (rm_copy_f32 out v model.n_embd)) := by
  have hguard : ¬(model.n_embd ≤ 0 ∨ out_len < model.n_embd) := by
    push_neg
    exact ⟨hembd, hout⟩
  have hw : ∀ sq dst src n, rm_write_output sq normalize dst src n = rm_copy_f32 dst src n := by
    intro sq dst src n
    simp [rm_write_output, hnorm]
  refine ⟨hw, ?_, ?_⟩
  · intro v hs
    simp only [rm_llama_embed_text]
    rw [if_neg hguard]
    simp only [rm_embed_core, hvocab, htok, hdec, hs, hw]
    exact ⟨rfl, rfl⟩
  · intro hs v hr
    simp only [rm_llama_embed_text]
    rw [if_neg hguard]
    simp only [rm_embed_core, hvocab, htok, hdec, hs, hr, hw]
    exact ⟨rfl, rfl⟩

/-- Witness for C9 at a concrete input: the undefined mode value 1
behaves as mode "none", returning success and the verbatim copy. -/
theorem rm_llama_embed_text_mode_fallthrough_witness :
    (1 : Int) ≠ 2 ∧
    (rm_tokenize_text engA vocabA "hi" true false).result = Except.ok [10, 11, 12] ∧
    engA.embSeq (engA.decode (rm_prelude ctxA 0 0).1 [10, 11, 12]).2 = some [3, 4] ∧
    ((rm_llama_embed_text engA (some ctxA) (some modelA) (some "hi") true false
        (some [0, 0]) 2 0 0 1).rc = 0 ∧
      (rm_llama_embed_text engA (some ctxA) (some modelA) (some "hi") true false
          (some [0, 0]) 2 0 0 1).buf
        = some (rm_copy_f32 [0, 0] [3, 4] modelA.n_embd)) :=
  ⟨by decide, rfl, rfl,
    ((rm_llama_embed_text_mode_fallthrough engA ctxA modelA "hi" true false [0, 0] 2
        0 0 1 vocabA [10, 11, 12] (by decide) (by decide) (by decide) rfl rfl rfl).2.1)
      [3, 4] rfl⟩
